import Mathlib

/-!
Verification of the mention/suggestion extension of the rich-text editor
(`src/components/documentDetail/mention.ts`).

The TypeScript code is shallowly embedded: nullable strings become
`Option String`, JS template interpolation of a nullable value becomes
`tsTemplate` (printing `"null"` for `null` as JS does), the nullish
coalescing operator `??` becomes `nullish`, HTML attribute records become
association lists `Attrs`, and the tiptap `mergeAttributes` helper is
reproduced over those lists.  Inline document content is modelled as a
list of atoms (`InlineAtom`), where a ProseMirror text node of length n
occupies n consecutive `ch` atoms and an atomic mention node occupies a
single `mention` atom, matching ProseMirror position arithmetic for
inline content (each character and each atomic inline node has size 1).
-/

set_option autoImplicit false

namespace Tochan

/-- Attributes of a mention node, from `MentionNodeAttrs` in the source:
`id : string | null`, `label?: string | null`. -/
structure MentionNodeAttrs where
  id : Option String
  label : Option String
  deriving Repr, DecidableEq

/-- JS nullish coalescing `a ?? b` on nullable strings. -/
def nullish : Option String → Option String → Option String
  | some a, _ => some a
  | none, b => b

/-- JS template interpolation of a nullable string: `null` prints as "null". -/
def tsTemplate : Option String → String
  | some s => s
  | none => "null"

/-- HTML attributes as an association list, in insertion order. -/
abbrev Attrs := List (String × String)

/-- The class-merging rule of tiptap `mergeAttributes`: the incoming class
list is split on spaces, classes not already present are appended. -/
def classJoin (oldVal newVal : String) : String :=
  let existing := oldVal.splitOn " "
  let inserts := (newVal.splitOn " ").filter (fun c => ¬ existing.contains c)
  String.intercalate " " (existing ++ inserts)

/-- One step of tiptap `mergeAttributes`: merge a single key/value pair into
the accumulated attributes.  A missing or empty existing value is
overwritten (JS `!exists`); an existing `class` has the new classes
appended via `classJoin`; any other existing key is overwritten. -/
def mergeInto (acc : Attrs) (kv : String × String) : Attrs :=
  match acc.lookup kv.1 with
  | none => acc ++ [kv]
  | some old =>
    if old = "" then
      acc.map (fun p => if p.1 = kv.1 then (p.1, kv.2) else p)
    else if kv.1 = "class" then
      acc.map (fun p => if p.1 = "class" then (p.1, classJoin old kv.2) else p)
    else
      acc.map (fun p => if p.1 = kv.1 then (p.1, kv.2) else p)

/-- tiptap `mergeAttributes(...objects)`: left fold of `mergeInto` over all
pairs of all objects, starting from the empty record. -/
def mergeAttributes (objs : List Attrs) : Attrs :=
  objs.foldl (fun acc o => o.foldl mergeInto acc) []

/-- ProseMirror DOM output spec, restricted to the shapes this extension
produces: a bare string, or an element with a tag, attributes and children. -/
inductive DOMOutputSpec where
  | str (s : String)
  | elt (tag : String) (attrs : Attrs) (children : List DOMOutputSpec)
  deriving Repr

/-- Tag of a DOM output spec element (empty for a bare string). -/
def DOMOutputSpec.tagOf : DOMOutputSpec → String
  | .str _ => ""
  | .elt t _ _ => t

/-- Attributes of a DOM output spec element (empty for a bare string). -/
def DOMOutputSpec.attrsOf : DOMOutputSpec → Attrs
  | .str _ => []
  | .elt _ a _ => a

/-- Children of a DOM output spec element (empty for a bare string). -/
def DOMOutputSpec.childrenOf : DOMOutputSpec → List DOMOutputSpec
  | .str _ => []
  | .elt _ _ c => c

/-- The data fields of `SuggestionOptions` the mention code reads. -/
structure SuggestionData where
  char : String
  deriving Repr

/-- The data fields of `MentionOptions` (everything but the render
callbacks). -/
structure OptionsData where
  HTMLAttributes : Attrs
  deleteTriggerWithBackspace : Bool
  suggestion : SuggestionData
  deriving Repr

/-- The `MentionOptions` record: data fields plus the render callbacks.  Each callback
receives the options object it is invoked on (`this`, first argument) and
the `options` render prop (second argument), both as plain data, plus the
node attributes. -/
structure MentionOptions where
  toData : OptionsData
  renderLabel : Option (OptionsData → MentionNodeAttrs → String)
  renderText : OptionsData → MentionNodeAttrs → String
  renderHTML : OptionsData → OptionsData → MentionNodeAttrs → DOMOutputSpec

/-- Embedding of `getHrefFromNode` from the source: the route `/thoughts/` followed by
the node id (JS-interpolated, so a null id prints as "null"). -/
def getHrefFromNode (node : MentionNodeAttrs) : String :=
  "/thoughts/" ++ tsTemplate node.id

/-- The default `renderText` from `addOptions`: the suggestion trigger
character followed by `label ?? id`. -/
def defaultRenderText (options : OptionsData) (node : MentionNodeAttrs) : String :=
  options.suggestion.char ++ tsTemplate (nullish node.label node.id)

/-- The default `renderHTML` from `addOptions`: an `a` element whose
attributes merge `class`/`href` with `this.HTMLAttributes` and
`options.HTMLAttributes`, and whose single child is the rendered text. -/
def defaultRenderHTML (self : OptionsData) (options : OptionsData)
    (node : MentionNodeAttrs) : DOMOutputSpec :=
  .elt "a"
    (mergeAttributes
      [[("class", "mention"), ("href", getHrefFromNode node)],
        self.HTMLAttributes, options.HTMLAttributes])
    [.str (options.suggestion.char ++ tsTemplate (nullish node.label node.id))]

/-- The default option record from `addOptions`: empty `HTMLAttributes`,
trigger character `@`, backspace does not delete the trigger, no
deprecated `renderLabel`, default render callbacks. -/
def defaultOptions : MentionOptions where
  toData := { HTMLAttributes := [], deleteTriggerWithBackspace := false,
              suggestion := { char := "@" } }
  renderLabel := none
  renderText := defaultRenderText
  renderHTML := defaultRenderHTML

/-- The `renderHTML` of the `id` attribute in `addAttributes`: a falsy id
(null or the empty string) yields no attribute, otherwise `data-id`. -/
def idRenderHTML : Option String → Attrs
  | none => []
  | some s => if s = "" then [] else [("data-id", s)]

/-- The `renderHTML` of the `label` attribute in `addAttributes`: a falsy
label (null or the empty string) yields no attribute, otherwise
`data-label`. -/
def labelRenderHTML : Option String → Attrs
  | none => []
  | some s => if s = "" then [] else [("data-label", s)]

/-- The `HTMLAttributes` record ProseMirror assembles for a mention node
from the per-attribute `renderHTML` results, in attribute order. -/
def nodeHTMLAttrs (node : MentionNodeAttrs) : Attrs :=
  idRenderHTML node.id ++ labelRenderHTML node.label

/-- The node-level `renderHTML` of the extension.  With the deprecated
`renderLabel` set it returns an `a` element (without `href`) whose text is
the result of `renderLabel` and emits a deprecation warning (the Bool).
Otherwise it calls `options.renderHTML` with the merged options; a plain
string result is wrapped in an `a` element, an element result is returned
as is.  The Bool records whether `console.warn` fired. -/
def mentionRenderHTML (opts : MentionOptions) (node : MentionNodeAttrs)
    (HTMLAttributes : Attrs) : DOMOutputSpec × Bool :=
  match opts.renderLabel with
  | some f =>
    (.elt "a"
      (mergeAttributes
        [[("data-type", "mention")], opts.toData.HTMLAttributes, HTMLAttributes])
      [.str (f opts.toData node)], true)
  | none =>
    let mergedData : OptionsData :=
      { opts.toData with
        HTMLAttributes :=
          mergeAttributes
            [[("data-type", "mention")], opts.toData.HTMLAttributes, HTMLAttributes] }
    let html := opts.renderHTML opts.toData mergedData node
    match html with
    | .str s =>
      (.elt "a"
        (mergeAttributes
          [[("data-type", "mention")], opts.toData.HTMLAttributes, HTMLAttributes])
        [.str s], false)
    | e => (e, false)

/-- The node-level `renderText` of the extension: the result of `renderLabel`
with a deprecation warning when that deprecated option is set, otherwise
`options.renderText`.  The Bool records whether `console.warn` fired. -/
def mentionRenderText (opts : MentionOptions) (node : MentionNodeAttrs) :
    String × Bool :=
  match opts.renderLabel with
  | some f => (f opts.toData node, true)
  | none => (opts.renderText opts.toData node, false)

/-- The markdown `serialize` function from `addStorage`: appends
`[@` + (label ?? id) + `](` + href + `)` to the serializer state, which is
modelled as the string written so far. -/
def markdownSerialize (state : String) (node : MentionNodeAttrs) : String :=
  state ++ "[@" ++ tsTemplate (nullish node.label node.id) ++ "]("
    ++ getHrefFromNode node ++ ")"

/-- The markdown storage: the serialize function together with the list of
markdown parse rules, which is empty in the source (`parse: {}`). -/
structure MarkdownStorage where
  serialize : String → MentionNodeAttrs → String
  parseRules : List String

/-- The mention markdown storage returned by `addStorage`. -/
def mentionMarkdownStorage : MarkdownStorage where
  serialize := markdownSerialize
  parseRules := []

/-- C1: the default renderText yields trigger-plus-label when the label is
set, and trigger-plus-id when the label is absent. -/
theorem renderText_default_label_or_id (options : OptionsData)
    (node : MentionNodeAttrs) :
    (∀ l, node.label = some l →
      defaultRenderText options node = options.suggestion.char ++ l) ∧
    (node.label = none → ∀ i, node.id = some i →
      defaultRenderText options node = options.suggestion.char ++ i) := by
  constructor
  · intro l hl
    simp [defaultRenderText, nullish, hl, tsTemplate]
  · intro hl i hi
    simp [defaultRenderText, nullish, hl, hi, tsTemplate]

/-- C1 witness: at the default trigger `@`, a node labelled "John" renders
as "@John", and an unlabelled node with id "doc123" renders as "@doc123". -/
theorem renderText_default_label_or_id_witness :
    defaultRenderText defaultOptions.toData
      { id := some "doc123", label := some "John" } = "@John" ∧
    defaultRenderText defaultOptions.toData
      { id := some "doc123", label := none } = "@doc123" :=
  ⟨(renderText_default_label_or_id defaultOptions.toData
      { id := some "doc123", label := some "John" }).1 "John" rfl,
   (renderText_default_label_or_id defaultOptions.toData
      { id := some "doc123", label := none }).2 rfl "doc123" rfl⟩

/-- C5: markdown serialization writes exactly
`[@` + (label ?? id) + `](/thoughts/` + id + `)`, and the markdown parse
rule list is empty, so parsing a mention back from markdown is
unsupported. -/
theorem close_bracket_thoughts_fuse (x : String) :
    "](" ++ ("/thoughts/" ++ x) = "](/thoughts/" ++ x := by
  rw [← String.append_assoc]
  rfl

theorem markdown_serialize_format (state : String) (node : MentionNodeAttrs)
    (i : String) (hi : node.id = some i) :
    mentionMarkdownStorage.serialize state node =
      state ++ "[@" ++ node.label.getD i ++ "](/thoughts/" ++ i ++ ")" ∧
    mentionMarkdownStorage.parseRules = [] := by
  refine ⟨?_, rfl⟩
  cases h : node.label with
  | none =>
    simp [mentionMarkdownStorage, markdownSerialize, nullish, tsTemplate,
      getHrefFromNode, hi, h, String.append_assoc, close_bracket_thoughts_fuse]
  | some l =>
    simp [mentionMarkdownStorage, markdownSerialize, nullish, tsTemplate,
      getHrefFromNode, hi, h, String.append_assoc, close_bracket_thoughts_fuse]

/-- C5 witness: serializing a mention with id "doc123" and label "Label"
from an empty serializer state yields "[@Label](/thoughts/doc123)". -/
theorem markdown_serialize_format_witness :
    mentionMarkdownStorage.serialize "" { id := some "doc123", label := some "Label" } =
      "" ++ "[@" ++ (some "Label").getD "doc123" ++ "](/thoughts/" ++ "doc123" ++ ")" ∧
    mentionMarkdownStorage.parseRules = [] :=
  markdown_serialize_format "" { id := some "doc123", label := some "Label" } "doc123" rfl

/-- C8: with the deprecated `renderLabel` option supplied, both the
node-level renderHTML and renderText use the result of `renderLabel` as the
rendered content, and both emit the deprecation warning; the render still
produces a well-formed result. -/
theorem renderLabel_precedence (opts : MentionOptions) (node : MentionNodeAttrs)
    (HTMLAttributes : Attrs) (f : OptionsData → MentionNodeAttrs → String)
    (hf : opts.renderLabel = some f) :
    (mentionRenderHTML opts node HTMLAttributes).1.childrenOf =
      [.str (f opts.toData node)] ∧
    (mentionRenderHTML opts node HTMLAttributes).2 = true ∧
    mentionRenderText opts node = (f opts.toData node, true) := by
  simp [mentionRenderHTML, mentionRenderText, hf, DOMOutputSpec.childrenOf]

/-- C8 witness: with a constant renderLabel returning "X", both render
paths yield "X" and warn. -/
theorem renderLabel_precedence_witness :
    (mentionRenderHTML { defaultOptions with renderLabel := some (fun _ _ => "X") }
        { id := some "doc123", label := some "L" } []).1.childrenOf = [.str "X"] ∧
    (mentionRenderHTML { defaultOptions with renderLabel := some (fun _ _ => "X") }
        { id := some "doc123", label := some "L" } []).2 = true ∧
    mentionRenderText { defaultOptions with renderLabel := some (fun _ _ => "X") }
        { id := some "doc123", label := some "L" } = ("X", true) :=
  renderLabel_precedence
    { defaultOptions with renderLabel := some (fun _ _ => "X") }
    { id := some "doc123", label := some "L" } [] (fun _ _ => "X") rfl

/-- C10: the serialized markup of a mention rendered with the default
configuration omits `data-id` whenever the id attribute is null or empty,
and omits `data-label` whenever the label attribute is null or empty. -/
theorem markup_omits_falsy_id_and_label (node : MentionNodeAttrs) :
    ((node.id = none ∨ node.id = some "") →
      ((mentionRenderHTML defaultOptions node (nodeHTMLAttrs node)).1.attrsOf.lookup
        "data-id" = none)) ∧
    ((node.label = none ∨ node.label = some "") →
      ((mentionRenderHTML defaultOptions node (nodeHTMLAttrs node)).1.attrsOf.lookup
        "data-label" = none)) := by
  obtain ⟨id, label⟩ := node
  constructor
  · rintro (h | h) <;> subst h <;> rcases label with _ | l
    · simp [mentionRenderHTML, defaultOptions, defaultRenderHTML, nodeHTMLAttrs,
        idRenderHTML, labelRenderHTML, mergeAttributes, mergeInto, getHrefFromNode,
        tsTemplate, nullish, List.lookup, DOMOutputSpec.attrsOf]
    · by_cases hl : l = "" <;>
        simp [mentionRenderHTML, defaultOptions, defaultRenderHTML, nodeHTMLAttrs,
          idRenderHTML, labelRenderHTML, mergeAttributes, mergeInto, getHrefFromNode,
          tsTemplate, nullish, List.lookup, DOMOutputSpec.attrsOf, hl]
    · simp [mentionRenderHTML, defaultOptions, defaultRenderHTML, nodeHTMLAttrs,
        idRenderHTML, labelRenderHTML, mergeAttributes, mergeInto, getHrefFromNode,
        tsTemplate, nullish, List.lookup, DOMOutputSpec.attrsOf]
    · by_cases hl : l = "" <;>
        simp [mentionRenderHTML, defaultOptions, defaultRenderHTML, nodeHTMLAttrs,
          idRenderHTML, labelRenderHTML, mergeAttributes, mergeInto, getHrefFromNode,
          tsTemplate, nullish, List.lookup, DOMOutputSpec.attrsOf, hl]
  · rintro (h | h) <;> subst h <;> rcases id with _ | i
    · simp [mentionRenderHTML, defaultOptions, defaultRenderHTML, nodeHTMLAttrs,
        idRenderHTML, labelRenderHTML, mergeAttributes, mergeInto, getHrefFromNode,
        tsTemplate, nullish, List.lookup, DOMOutputSpec.attrsOf]
    · by_cases hi : i = "" <;>
        simp [mentionRenderHTML, defaultOptions, defaultRenderHTML, nodeHTMLAttrs,
          idRenderHTML, labelRenderHTML, mergeAttributes, mergeInto, getHrefFromNode,
          tsTemplate, nullish, List.lookup, DOMOutputSpec.attrsOf, hi]
    · simp [mentionRenderHTML, defaultOptions, defaultRenderHTML, nodeHTMLAttrs,
        idRenderHTML, labelRenderHTML, mergeAttributes, mergeInto, getHrefFromNode,
        tsTemplate, nullish, List.lookup, DOMOutputSpec.attrsOf]
    · by_cases hi : i = "" <;>
        simp [mentionRenderHTML, defaultOptions, defaultRenderHTML, nodeHTMLAttrs,
          idRenderHTML, labelRenderHTML, mergeAttributes, mergeInto, getHrefFromNode,
          tsTemplate, nullish, List.lookup, DOMOutputSpec.attrsOf, hi]

/-- C10 witness: a node with empty id and null label renders with neither
`data-id` nor `data-label` in its markup attributes. -/
theorem markup_omits_falsy_id_and_label_witness :
    ((mentionRenderHTML defaultOptions { id := some "", label := none }
        (nodeHTMLAttrs { id := some "", label := none })).1.attrsOf.lookup
      "data-id" = none) ∧
    ((mentionRenderHTML defaultOptions { id := some "", label := none }
        (nodeHTMLAttrs { id := some "", label := none })).1.attrsOf.lookup
      "data-label" = none) :=
  ⟨(markup_omits_falsy_id_and_label { id := some "", label := none }).1 (Or.inr rfl),
   (markup_omits_falsy_id_and_label { id := some "", label := none }).2 (Or.inl rfl)⟩

/-- C6 counterexample: a node whose label is set to the empty string
renders with no `data-label` attribute at all, so the markup does not
carry `data-label` equal to the label. -/
theorem markup_empty_label_counterexample :
    ¬ ((mentionRenderHTML defaultOptions { id := some "doc123", label := some "" }
        (nodeHTMLAttrs { id := some "doc123", label := some "" })).1.attrsOf.lookup
      "data-label" = some "") := by
  decide

/-- C6 amended: for every mention node with id and label set to nonempty
strings, the default-configuration markup is an `a` element carrying class
"mention", `href` to the thought route, `data-type` "mention", `data-id`
the id, `data-label` the label, and text content `@` followed by the
label. -/
theorem markup_format_nonempty (i l : String) (hi : i ≠ "") (hl : l ≠ "") :
    (mentionRenderHTML defaultOptions { id := some i, label := some l }
        (nodeHTMLAttrs { id := some i, label := some l })).1 =
      .elt "a"
        [("class", "mention"), ("href", "/thoughts/" ++ i), ("data-type", "mention"),
          ("data-id", i), ("data-label", l)]
        [.str ("@" ++ l)] := by
  simp [mentionRenderHTML, defaultOptions, defaultRenderHTML, nodeHTMLAttrs,
    idRenderHTML, labelRenderHTML, mergeAttributes, mergeInto, getHrefFromNode,
    tsTemplate, nullish, List.lookup, hi, hl]

/-- C6 witness: the amended markup statement at id "doc123", label
"Label". -/
theorem markup_format_nonempty_witness :
    (mentionRenderHTML defaultOptions { id := some "doc123", label := some "Label" }
        (nodeHTMLAttrs { id := some "doc123", label := some "Label" })).1 =
      .elt "a"
        [("class", "mention"), ("href", "/thoughts/" ++ "doc123"),
          ("data-type", "mention"), ("data-id", "doc123"), ("data-label", "Label")]
        [.str ("@" ++ "Label")] :=
  markup_format_nonempty "doc123" "Label" (by decide) (by decide)

/-- C7 counterexample: with the deprecated `renderLabel` option configured,
the rendered element has no `href` attribute, so not every render
configuration yields a link to the thought route. -/
theorem renderLabel_path_omits_href :
    ((mentionRenderHTML
        { defaultOptions with
          renderLabel := some (fun o n =>
            o.suggestion.char ++ tsTemplate (nullish n.label n.id)) }
        { id := some "doc123", label := some "L" }
        (nodeHTMLAttrs { id := some "doc123", label := some "L" })).1.attrsOf.lookup
      "href" = none) := by
  decide

/-- C7 amended: under the default render configuration (no `renderLabel`,
default `renderHTML`), every mention node with a string id renders as an
`a` element whose `href` is `/thoughts/` followed by the id. -/
theorem renderHTML_default_href (node : MentionNodeAttrs) (i : String)
    (hi : node.id = some i) :
    ((mentionRenderHTML defaultOptions node (nodeHTMLAttrs node)).1.tagOf = "a") ∧
    ((mentionRenderHTML defaultOptions node (nodeHTMLAttrs node)).1.attrsOf.lookup
      "href" = some ("/thoughts/" ++ i)) := by
  obtain ⟨id, label⟩ := node
  subst hi
  rcases label with _ | l
  · by_cases hi0 : i = "" <;>
      simp [mentionRenderHTML, defaultOptions, defaultRenderHTML, nodeHTMLAttrs,
        idRenderHTML, labelRenderHTML, mergeAttributes, mergeInto, getHrefFromNode,
        tsTemplate, nullish, List.lookup, DOMOutputSpec.attrsOf,
        DOMOutputSpec.tagOf, hi0]
  · by_cases hi0 : i = "" <;> by_cases hl : l = "" <;>
      simp [mentionRenderHTML, defaultOptions, defaultRenderHTML, nodeHTMLAttrs,
        idRenderHTML, labelRenderHTML, mergeAttributes, mergeInto, getHrefFromNode,
        tsTemplate, nullish, List.lookup, DOMOutputSpec.attrsOf,
        DOMOutputSpec.tagOf, hi0, hl]

/-- C7 witness: the amended href statement at id "doc123" with a null
label. -/
theorem renderHTML_default_href_witness :
    ((mentionRenderHTML defaultOptions { id := some "doc123", label := none }
        (nodeHTMLAttrs { id := some "doc123", label := none })).1.tagOf = "a") ∧
    ((mentionRenderHTML defaultOptions { id := some "doc123", label := none }
        (nodeHTMLAttrs { id := some "doc123", label := none })).1.attrsOf.lookup
      "href" = some ("/thoughts/" ++ "doc123")) :=
  renderHTML_default_href { id := some "doc123", label := none } "doc123" rfl

/-- An atom of flat inline content: a ProseMirror text node of length n
occupies n consecutive `ch` atoms, and a mention node (atomic, inline,
`nodeSize = 1`) occupies one `mention` atom, so list indices coincide with
ProseMirror positions inside the parent textblock. -/
inductive InlineAtom where
  | ch (c : Char)
  | mention (attrs : MentionNodeAttrs)
  deriving Repr, DecidableEq

/-- The leading run of text characters of a suffix of inline content. -/
def leadingChars : List InlineAtom → List Char
  | .ch c :: rest => c :: leadingChars rest
  | _ => []

/-- The value of `$pos.nodeAfter?.text` at position `p`: when the content continues with
text, the text of the (cut) text node starting at `p`, as its character
list; `none` (JS undefined) at a mention or at the end. -/
def nodeAfterText (doc : List InlineAtom) (p : Nat) : Option (List Char) :=
  match doc.drop p with
  | .ch c :: rest => some (c :: leadingChars rest)
  | _ => none

/-- The test `nodeAfter?.text?.startsWith(" ")` from the suggestion command, with JS
optional chaining collapsing the missing cases to false. -/
def overrideSpaceAt (doc : List InlineAtom) (p : Nat) : Bool :=
  match nodeAfterText doc p with
  | some t => [' '].isPrefixOf t
  | none => false

/-- Result of running the suggestion command: the updated inline content
and the cursor position (the selection collapsed to the end of the
inserted content). -/
structure CommandResult where
  doc : List InlineAtom
  cursor : Nat
  deriving Repr, DecidableEq

/-- The `suggestion.command` from `addOptions`: when the text node right
after the selection head starts with a space, the replacement range is
extended by one; then `insertContentAt` replaces the range with a mention
node followed by a single-space text node, and the selection collapses to
the end of the inserted content. -/
def suggestionCommand (doc : List InlineAtom) (rFrom rTo selTo : Nat)
    (attrs : MentionNodeAttrs) : CommandResult :=
  let to2 := if overrideSpaceAt doc selTo then rTo + 1 else rTo
  { doc := doc.take rFrom ++ [.mention attrs, .ch ' '] ++ doc.drop to2
    cursor := rFrom + 2 }

theorem overrideSpaceAt_eq_true_iff (doc : List InlineAtom) (p : Nat) :
    overrideSpaceAt doc p = true ↔ doc[p]? = some (.ch ' ') := by
  have hd : (doc.drop p)[0]? = doc[p]? := by
    simp [List.getElem?_drop]
  rw [← hd]
  rcases h : doc.drop p with _ | ⟨a, rest⟩
  · simp [overrideSpaceAt, nodeAfterText, h]
  · rcases a with c | m
    · simp only [overrideSpaceAt, nodeAfterText, h, List.isPrefixOf, Bool.and_true,
        List.getElem?_cons_zero, Option.some.injEq, InlineAtom.ch.injEq, beq_iff_eq]
      exact eq_comm
    · simp [overrideSpaceAt, nodeAfterText, h]

/-- C2: the suggestion command inserts a mention node and exactly one
space at the replacement range; a pre-existing space right after the
insertion point is absorbed (the dropped suffix starts after it), not
duplicated, and an absent space is not consumed; the cursor ends at the
end of the inserted content. -/
theorem suggestion_command_spec (doc : List InlineAtom) (rFrom rTo selTo : Nat)
    (attrs : MentionNodeAttrs) (hsel : selTo = rTo) (h1 : rFrom ≤ rTo)
    (h2 : rTo ≤ doc.length) :
    ((suggestionCommand doc rFrom rTo selTo attrs).doc.take rFrom = doc.take rFrom) ∧
    ((suggestionCommand doc rFrom rTo selTo attrs).doc[rFrom]? =
      some (.mention attrs)) ∧
    ((suggestionCommand doc rFrom rTo selTo attrs).doc[rFrom + 1]? =
      some (.ch ' ')) ∧
    (doc[rTo]? = some (.ch ' ') →
      (suggestionCommand doc rFrom rTo selTo attrs).doc.drop (rFrom + 2) =
        doc.drop (rTo + 1)) ∧
    (doc[rTo]? ≠ some (.ch ' ') →
      (suggestionCommand doc rFrom rTo selTo attrs).doc.drop (rFrom + 2) =
        doc.drop rTo) ∧
    ((suggestionCommand doc rFrom rTo selTo attrs).cursor = rFrom + 2) := by
  subst selTo
  have hfl : rFrom ≤ doc.length := le_trans h1 h2
  have hlen : (doc.take rFrom).length = rFrom := by
    rw [List.length_take]
    omega
  have hshape : (suggestionCommand doc rFrom rTo rTo attrs).doc =
      (doc.take rFrom ++ [.mention attrs, .ch ' ']) ++
        doc.drop (if overrideSpaceAt doc rTo then rTo + 1 else rTo) := by
    simp [suggestionCommand]
  have hlen2 : (doc.take rFrom ++ [InlineAtom.mention attrs, InlineAtom.ch ' ']).length
      = rFrom + 2 := by
    simp [hlen]
  refine ⟨?_, ?_, ?_, ?_, ?_, rfl⟩
  · rw [hshape, List.take_append_of_le_length (by rw [hlen2]; omega),
      List.take_append_of_le_length (le_of_eq hlen.symm), List.take_take]
    simp
  · rw [hshape, List.append_assoc,
      List.getElem?_append_right (le_of_eq hlen), hlen, Nat.sub_self,
      List.getElem?_append_left (by simp)]
    rfl
  · rw [hshape, List.append_assoc,
      List.getElem?_append_right (by rw [hlen]; omega), hlen]
    have h11 : rFrom + 1 - rFrom = 1 := by omega
    rw [h11, List.getElem?_append_left (by simp)]
    rfl
  · intro hsp
    have hov : overrideSpaceAt doc rTo = true :=
      (overrideSpaceAt_eq_true_iff doc rTo).2 hsp
    rw [hshape, hov, if_pos rfl, ← hlen2, List.drop_left]
  · intro hsp
    have hov : overrideSpaceAt doc rTo = false := by
      rcases Bool.eq_false_or_eq_true (overrideSpaceAt doc rTo) with h | h
      · exact absurd ((overrideSpaceAt_eq_true_iff doc rTo).1 h) hsp
      · exact h
    rw [hshape, hov, if_neg (by simp), ← hlen2, List.drop_left]

/-- C2 witness: replacing the typed query "@j" in "a@j b" with a mention
absorbs the following space: the result is the prefix "a", the mention,
exactly one space, then "b", with the cursor after the inserted space. -/
theorem suggestion_command_spec_witness :
    ((suggestionCommand [InlineAtom.ch 'a', InlineAtom.ch '@', InlineAtom.ch 'j',
        InlineAtom.ch ' ', InlineAtom.ch 'b'] 1 3 3
        { id := some "doc123", label := some "John" }).doc.take 1 =
      ([InlineAtom.ch 'a', InlineAtom.ch '@', InlineAtom.ch 'j',
        InlineAtom.ch ' ', InlineAtom.ch 'b'] : List InlineAtom).take 1) ∧
    ((suggestionCommand [InlineAtom.ch 'a', InlineAtom.ch '@', InlineAtom.ch 'j',
        InlineAtom.ch ' ', InlineAtom.ch 'b'] 1 3 3
        { id := some "doc123", label := some "John" }).doc[1]? =
      some (.mention { id := some "doc123", label := some "John" })) ∧
    ((suggestionCommand [InlineAtom.ch 'a', InlineAtom.ch '@', InlineAtom.ch 'j',
        InlineAtom.ch ' ', InlineAtom.ch 'b'] 1 3 3
        { id := some "doc123", label := some "John" }).doc[1 + 1]? =
      some (.ch ' ')) ∧
    (([InlineAtom.ch 'a', InlineAtom.ch '@', InlineAtom.ch 'j',
        InlineAtom.ch ' ', InlineAtom.ch 'b'] : List InlineAtom)[3]? =
          some (.ch ' ') →
      (suggestionCommand [InlineAtom.ch 'a', InlineAtom.ch '@', InlineAtom.ch 'j',
        InlineAtom.ch ' ', InlineAtom.ch 'b'] 1 3 3
        { id := some "doc123", label := some "John" }).doc.drop (1 + 2) =
      ([InlineAtom.ch 'a', InlineAtom.ch '@', InlineAtom.ch 'j',
        InlineAtom.ch ' ', InlineAtom.ch 'b'] : List InlineAtom).drop (3 + 1)) ∧
    (([InlineAtom.ch 'a', InlineAtom.ch '@', InlineAtom.ch 'j',
        InlineAtom.ch ' ', InlineAtom.ch 'b'] : List InlineAtom)[3]? ≠
          some (.ch ' ') →
      (suggestionCommand [InlineAtom.ch 'a', InlineAtom.ch '@', InlineAtom.ch 'j',
        InlineAtom.ch ' ', InlineAtom.ch 'b'] 1 3 3
        { id := some "doc123", label := some "John" }).doc.drop (1 + 2) =
      ([InlineAtom.ch 'a', InlineAtom.ch '@', InlineAtom.ch 'j',
        InlineAtom.ch ' ', InlineAtom.ch 'b'] : List InlineAtom).drop 3) ∧
    ((suggestionCommand [InlineAtom.ch 'a', InlineAtom.ch '@', InlineAtom.ch 'j',
        InlineAtom.ch ' ', InlineAtom.ch 'b'] 1 3 3
        { id := some "doc123", label := some "John" }).cursor = 1 + 2) :=
  suggestion_command_spec
    [InlineAtom.ch 'a', InlineAtom.ch '@', InlineAtom.ch 'j',
      InlineAtom.ch ' ', InlineAtom.ch 'b'] 1 3 3
    { id := some "doc123", label := some "John" } rfl (by decide) (by decide)

/-- One pass of `doc.nodesBetween(from, to)` over flat inline content,
carrying the position of the head atom: an atom of size 1 at position
`pos` is visited when `pos < to` and `from < pos + 1`, i.e. its span
overlaps the range; traversal continues past visited nodes. -/
def nodesBetweenFrom (doc : List InlineAtom) (pos f t : Nat) :
    List (Nat × InlineAtom) :=
  match doc with
  | [] => []
  | a :: rest =>
    (if pos < t ∧ f < pos + 1 then [(pos, a)] else []) ++
      nodesBetweenFrom rest (pos + 1) f t

/-- Embedding of `doc.nodesBetween(from, to)`: the visited atoms with their positions. -/
def nodesBetween (doc : List InlineAtom) (f t : Nat) : List (Nat × InlineAtom) :=
  nodesBetweenFrom doc 0 f t

/-- Embedding of `tr.insertText(text, from, to)`: replace the range with the text. -/
def insertText (doc : List InlineAtom) (text : String) (f t : Nat) :
    List InlineAtom :=
  doc.take f ++ text.toList.map InlineAtom.ch ++ doc.drop t

/-- The selection fields the Backspace handler reads. -/
structure SelectionState where
  empty : Bool
  anchor : Nat
  deriving Repr, DecidableEq

/-- The Backspace keyboard shortcut from `addKeyboardShortcuts`: on a
non-empty selection the command reports false; otherwise every mention
visited in `[anchor - 1, anchor)` is replaced in the transaction by the
empty string or the trigger character (for a `String` trigger,
`char || ""` is `char` itself), over the node's whole span
`[pos, pos + nodeSize)` with `nodeSize = 1`.  `some` is the updated
document when the command reports true, `none` when it reports false. -/
def backspaceCommand (opts : OptionsData) (doc : List InlineAtom)
    (sel : SelectionState) : Option (List InlineAtom) :=
  if !sel.empty then none
  else
    let visits := nodesBetween doc (sel.anchor - 1) sel.anchor
    let result := visits.foldl
      (fun st pa =>
        match pa.2 with
        | .mention _ =>
          (true,
            insertText st.2
              (if opts.deleteTriggerWithBackspace then "" else opts.suggestion.char)
              pa.1 (pa.1 + 1))
        | _ => st)
      (false, doc)
    if result.1 then some result.2 else none

theorem nodesBetweenFrom_nil_of_le (doc : List InlineAtom) :
    ∀ pos f t, t ≤ pos → nodesBetweenFrom doc pos f t = [] := by
  induction doc with
  | nil => intro pos f t h; rfl
  | cons a rest ih =>
    intro pos f t h
    simp only [nodesBetweenFrom]
    rw [if_neg (by omega), List.nil_append]
    exact ih (pos + 1) f t (by omega)

theorem nodesBetweenFrom_singleton (doc : List InlineAtom) :
    ∀ pos p a, doc[p]? = some a →
      nodesBetweenFrom doc pos (pos + p) (pos + p + 1) = [(pos + p, a)] := by
  induction doc with
  | nil => intro pos p a h; simp at h
  | cons x rest ih =>
    intro pos p a h
    cases p with
    | zero =>
      simp at h
      subst h
      simp only [nodesBetweenFrom]
      rw [if_pos (by omega),
        nodesBetweenFrom_nil_of_le rest (pos + 1) (pos + 0) (pos + 0 + 1) (by omega)]
      simp
    | succ q =>
      simp at h
      simp only [nodesBetweenFrom]
      rw [if_neg (by omega), List.nil_append]
      have e1 : pos + (q + 1) = pos + 1 + q := by omega
      rw [e1]
      exact ih (pos + 1) q a h

theorem nodesBetween_singleton (doc : List InlineAtom) (p : Nat) (a : InlineAtom)
    (h : doc[p]? = some a) : nodesBetween doc p (p + 1) = [(p, a)] := by
  have h0 := nodesBetweenFrom_singleton doc 0 p a h
  simpa [nodesBetween] using h0

/-- C3: with an empty selection immediately after a mention atom, the
Backspace command replaces the whole mention node atomically: the document
becomes the prefix before the mention, then nothing (when
`deleteTriggerWithBackspace` is set) or the trigger characters, then the
suffix after the mention. -/
theorem backspace_replaces_whole_mention (opts : OptionsData)
    (doc : List InlineAtom) (sel : SelectionState) (a : MentionNodeAttrs)
    (hempty : sel.empty = true) (hanchor : 1 ≤ sel.anchor)
    (hm : doc[sel.anchor - 1]? = some (.mention a)) :
    backspaceCommand opts doc sel =
      some (doc.take (sel.anchor - 1) ++
        (if opts.deleteTriggerWithBackspace then []
          else opts.suggestion.char.toList.map InlineAtom.ch) ++
        doc.drop sel.anchor) := by
  obtain ⟨e, anch⟩ := sel
  simp only at hempty hm ⊢
  subst hempty
  obtain ⟨n, rfl⟩ : ∃ n, anch = n + 1 :=
    ⟨anch - 1, by have h1 : 1 ≤ anch := hanchor; omega⟩
  have hm2 : doc[n]? = some (InlineAtom.mention a) := by simpa using hm
  have hvisits := nodesBetween_singleton doc n (InlineAtom.mention a) hm2
  simp only [backspaceCommand, Bool.not_true, Bool.false_eq_true, if_false,
    Nat.add_sub_cancel, hvisits, List.foldl_cons, List.foldl_nil, if_true]
  cases hflag : opts.deleteTriggerWithBackspace <;>
    simp [insertText, hflag, Nat.add_sub_cancel]

/-- C3 witness: with the default options (trigger "@", keep-trigger
behaviour), backspacing right after the mention in "x∘y" yields "x@y". -/
theorem backspace_replaces_whole_mention_witness :
    backspaceCommand defaultOptions.toData
      [InlineAtom.ch 'x', InlineAtom.mention { id := some "d", label := some "L" },
        InlineAtom.ch 'y']
      { empty := true, anchor := 2 } =
      some ([InlineAtom.ch 'x', InlineAtom.mention { id := some "d", label := some "L" },
        InlineAtom.ch 'y'].take (2 - 1) ++
        (if defaultOptions.toData.deleteTriggerWithBackspace then []
          else defaultOptions.toData.suggestion.char.toList.map InlineAtom.ch) ++
        [InlineAtom.ch 'x', InlineAtom.mention { id := some "d", label := some "L" },
          InlineAtom.ch 'y'].drop 2) :=
  backspace_replaces_whole_mention defaultOptions.toData
    [InlineAtom.ch 'x', InlineAtom.mention { id := some "d", label := some "L" },
      InlineAtom.ch 'y']
    { empty := true, anchor := 2 } { id := some "d", label := some "L" }
    rfl (by decide) (by decide)

/-- A top-level block node of the document: the inline node type names its
content match accepts, and its inline content. -/
structure BlockNode where
  allowedInline : List String
  content : List InlineAtom

/-- ProseMirror node size of a block: open token, content, close token. -/
def blockSize (b : BlockNode) : Nat := b.content.length + 2

/-- The editor state fields the `allow` callback reads: the top-level
blocks and the content match of the document node itself. -/
structure EditorState where
  blocks : List BlockNode
  docAllowed : List String

/-- Embedding of `contentMatch.matchType(type)`: `some` match when the
content match accepts the node type, JS null otherwise. -/
def matchType (allowed : List String) (t : String) : Option Unit :=
  if t ∈ allowed then some () else none

/-- Embedding of `state.doc.resolve(pos).parent`, as the accepted inline types of the
parent node: a position strictly inside a block resolves to that block, a
position at top level (between blocks) resolves to the document node. -/
def resolveParentAllowed (docAllowed : List String) :
    List BlockNode → Nat → List String
  | [], _ => docAllowed
  | b :: bs, pos =>
    if pos = 0 then docAllowed
    else if pos < blockSize b then b.allowedInline
    else resolveParentAllowed docAllowed bs (pos - blockSize b)

/-- The suggestion `allow` callback from `addOptions`: the double negation
of `$from.parent.type.contentMatch.matchType(mention)`. -/
def suggestionAllow (st : EditorState) (rangeFrom : Nat) : Bool :=
  (matchType (resolveParentAllowed st.docAllowed st.blocks rangeFrom)
    "mention").isSome

/-- Modelled from the spec: the tiptap Suggestion plugin (an external
dependency, not part of this repository) opens its popup only when its
other activation conditions hold and the `allow` callback approves the
position. -/
def popupOpens (st : EditorState) (rangeFrom : Nat)
    (otherConditions : Bool) : Bool :=
  otherConditions && suggestionAllow st rangeFrom

/-- C4: at every position whose parent content match does not accept the
mention node type, the `allow` callback returns false, and hence the
suggestion popup does not open there. -/
theorem allow_false_where_schema_forbids (st : EditorState) (pos : Nat)
    (other : Bool)
    (h : "mention" ∉ resolveParentAllowed st.docAllowed st.blocks pos) :
    suggestionAllow st pos = false ∧ popupOpens st pos other = false := by
  have hm : matchType (resolveParentAllowed st.docAllowed st.blocks pos)
      "mention" = none := by
    simp [matchType, h]
  exact ⟨by simp [suggestionAllow, hm], by simp [popupOpens, suggestionAllow, hm]⟩

/-- C4 witness: inside a code block whose content match accepts only text,
`allow` is false and the popup stays closed. -/
theorem allow_false_where_schema_forbids_witness :
    suggestionAllow
      { blocks := [{ allowedInline := ["text"], content := [InlineAtom.ch 'c'] }],
        docAllowed := ["paragraph", "codeBlock"] } 1 = false ∧
    popupOpens
      { blocks := [{ allowedInline := ["text"], content := [InlineAtom.ch 'c'] }],
        docAllowed := ["paragraph", "codeBlock"] } 1 true = false :=
  allow_false_where_schema_forbids
    { blocks := [{ allowedInline := ["text"], content := [InlineAtom.ch 'c'] }],
      docAllowed := ["paragraph", "codeBlock"] } 1 true (by decide)

/-- Modelled from the spec: `getAllNodesWithType` is imported from
`@/utils/tiptap`, whose source is not part of this repository; per the
spec the label refresher walks all mention nodes of the document, so the
helper collects the nodes of the requested type.  For the mention type it
returns each mention atom's position and attributes. -/
def getAllNodesWithType (doc : List InlineAtom) (t : String) :
    List (Nat × MentionNodeAttrs) :=
  if t = "mention" then
    doc.enum.filterMap (fun pa =>
      match pa.2 with
      | .mention m => some (pa.1, m)
      | _ => none)
  else []

/-- Embedding of `updateMentionNodeNames`: reads the document's mention nodes; the
whole label-refresh body (backend query, label list, attribute updates) is
commented out in the source, so the document is returned unchanged. -/
def updateMentionNodeNames (doc : List InlineAtom) : List InlineAtom :=
  let _mentions := getAllNodesWithType doc "mention"
  doc

/-- C9: the stubbed label-refresh routine is the identity on the document,
so the id and label attributes of every mention node are unchanged. -/
theorem updateMentionNodeNames_leaves_mentions (doc : List InlineAtom) :
    updateMentionNodeNames doc = doc ∧
    getAllNodesWithType (updateMentionNodeNames doc) "mention" =
      getAllNodesWithType doc "mention" :=
  ⟨rfl, rfl⟩

end Tochan
